import Mathlib

/-!
# Verification of the VILA demo scripts

A shallow embedding, in Lean 4, of the two scripts of this repository:

* `src/local.py` — an interactive command-line session that discovers images in
  a directory, lets the user select some, reads a question and generates an
  answer with an in-process vision-language model;
* `src/client.py` — a straight-line HTTP client that posts one chat-completion
  request and prints the answer.

Python strings are modelled as lists of Unicode code points (`PyStr`), with
executable re-implementations of the string operations the scripts use
(`strip`, `lower`, `upper`, `split`, `in`, `int`, lexicographic comparison).
The ASCII fragment is modelled exactly; the scripts' inputs (file names,
environment values, user commands) live in that fragment.  File-system
directories are modelled as the list of entry names they contain (`none`
standing for a missing directory), standard input as the list of lines the
user types, and the process-level control flow of `main` as a step function
over a trace of per-turn events.
-/

/-- A Python string: a sequence of Unicode code points. -/
abbrev PyStr := List Char

/-- Python `str.strip()` whitespace test, for the ASCII whitespace characters
(space, tab, newline, carriage return, vertical tab, form feed).  Python also
strips some non-ASCII Unicode spaces; the scripts' inputs are ASCII. -/
def pyIsSpace (c : Char) : Bool :=
  c = ' ' || c = '\t' || c = '\n' || c = '\r' || c = '\x0b' || c = '\x0c'

/-- Python `s.strip()`: remove leading and trailing whitespace. -/
def pyStrip (s : PyStr) : PyStr :=
  ((s.dropWhile pyIsSpace).reverse.dropWhile pyIsSpace).reverse

/-- Python `s.lower()`, on the ASCII fragment (`Char.toLower` lowercases
exactly the letters A–Z, as Python does on ASCII input). -/
def pyLower (s : PyStr) : PyStr :=
  s.map Char.toLower

/-- Python `s.upper()`, on the ASCII fragment. -/
def pyUpper (s : PyStr) : PyStr :=
  s.map Char.toUpper

/-- Python string comparison `s <= t`: lexicographic on code points. -/
def lexLe : PyStr → PyStr → Bool
  | [], _ => true
  | _ :: _, [] => false
  | a :: s, b :: t => if a < b then true else if a = b then lexLe s t else false

/-- Value of a nonempty run of ASCII digits; `none` if empty or a non-digit
occurs. -/
def digitsVal (s : PyStr) : Option Nat :=
  if s = [] then none
  else if s.all Char.isDigit then
    some (s.foldl (fun a c => a * 10 + (c.toNat - 48)) 0)
  else none

/-- Python `int(s)` on decimal literals: optional surrounding whitespace, an
optional sign, then digits; `none` models the `ValueError` raised otherwise.
(Underscore digit grouping and non-ASCII digits, which Python also accepts,
are not modelled; the scripts' numeric inputs are plain decimals.) -/
def pyInt (s : PyStr) : Option Int :=
  match pyStrip s with
  | [] => none
  | '-' :: rest => (digitsVal rest).map (fun v => -(v : Int))
  | '+' :: rest => (digitsVal rest).map (fun v => (v : Int))
  | other => (digitsVal other).map (fun v => (v : Int))

/-- Python `needle in hay` on strings: substring (contiguous) containment,
case kept as given. -/
def pyContains (hay needle : PyStr) : Bool :=
  decide (needle <:+: hay)

/-- The order used by Python's `sorted` on the catalog paths: lexicographic
comparison of the path strings. -/
def pyStrLe (a b : PyStr) : Prop :=
  lexLe a b = true

instance (a b : PyStr) : Decidable (pyStrLe a b) :=
  inferInstanceAs (Decidable (lexLe a b = true))

theorem lexLe_trans : ∀ a b c : PyStr, lexLe a b = true → lexLe b c = true →
    lexLe a c = true
  | [], _, _, _, _ => by simp [lexLe]
  | x :: s, [], _, h1, _ => by simp [lexLe] at h1
  | x :: s, y :: t, [], _, h2 => by simp [lexLe] at h2
  | x :: s, y :: t, z :: u, h1, h2 => by
    simp only [lexLe] at h1 h2 ⊢
    by_cases hxy : x < y
    · by_cases hyz : y < z
      · simp [lt_trans hxy hyz]
      · by_cases hyz2 : y = z
        · subst hyz2; simp [hxy]
        · rw [if_neg hyz, if_neg hyz2] at h2; exact absurd h2 (by simp)
    · by_cases hxy2 : x = y
      · subst hxy2
        rw [if_neg hxy, if_pos rfl] at h1
        by_cases hyz : x < z
        · simp [hyz]
        · by_cases hyz2 : x = z
          · subst hyz2
            rw [if_neg hyz, if_pos rfl] at h2
            simp [lt_irrefl, lexLe_trans s t u h1 h2]
          · rw [if_neg hyz, if_neg hyz2] at h2; exact absurd h2 (by simp)
      · rw [if_neg hxy, if_neg hxy2] at h1; exact absurd h1 (by simp)

theorem lexLe_total : ∀ a b : PyStr, lexLe a b = true ∨ lexLe b a = true
  | [], _ => by simp [lexLe]
  | x :: s, [] => by simp [lexLe]
  | x :: s, y :: t => by
    rcases lt_trichotomy x y with h | h | h
    · left; simp [lexLe, h]
    · subst h
      rcases lexLe_total s t with h | h <;> [left; right] <;>
        simp [lexLe, h, lt_irrefl]
    · right; simp [lexLe, h]

instance : IsTrans PyStr pyStrLe :=
  ⟨fun a b c => lexLe_trans a b c⟩

instance : IsTotal PyStr pyStrLe :=
  ⟨fun a b => lexLe_total a b⟩

/-! ## `find_images` (src/local.py, lines 17–31)

The directory is modelled as the list of names of its entries (`none` when
`images_path.exists()` is false).  `Path.glob` matches the fnmatch pattern
`*<ext>` against each entry name, i.e. keeps the names with suffix `<ext>`
(pathlib's `*` also matches dot-initial names, and on a case-sensitive file
system the match is case-sensitive).  The function returns the matches for
the lowercase and the uppercase variant of each supported extension, sorted;
the Bool records whether `logger.error` was called. -/

/-- The `supported_extensions` list of `find_images`. -/
def supported_extensions : List PyStr :=
  [".jpg".toList, ".jpeg".toList, ".png".toList, ".bmp".toList, ".gif".toList]

/-- `find_images(images_dir)`: `none` models a missing directory (logs an
error, returns `[]`); otherwise glob each extension in lowercase and
uppercase form and sort the union.  Returns (file list, error-logged flag). -/
def find_images (dir : Option (List PyStr)) : List PyStr × Bool :=
  match dir with
  | none => ([], true)
  | some names =>
    let image_files := supported_extensions.flatMap (fun ext =>
      names.filter (fun n => decide (ext <:+ n)) ++
        names.filter (fun n => decide (pyUpper ext <:+ n)))
    (image_files.insertionSort pyStrLe, false)

/-! ## `select_images` (src/local.py, lines 43–76)

One iteration of the input loop, as a function of the line the user typed:
`none` means the iteration did not return (the loop re-prompts), `some l`
means the call returned the list `l`. -/

/-- The index loop of `select_images`: append `image_files[idx-1]` for each
in-range index, return `[]` at the first out-of-range index, and after the
loop return the accumulated list if it is nonempty (otherwise fall through,
i.e. re-prompt). -/
def collectIndices (image_files : List PyStr) : List Int → List PyStr →
    Option (List PyStr)
  | [], selected => if selected = [] then none else some selected.reverse
  | idx :: rest, selected =>
    if 1 ≤ idx ∧ idx ≤ (image_files.length : Int) then
      collectIndices image_files rest (image_files.getD (idx - 1).toNat [] :: selected)
    else
      some []

/-- `int(idx.strip()) for idx in selection.split(",")`: `none` models the
`ValueError` when any comma-separated token is not an integer literal. -/
def parseIndices (selection : PyStr) : Option (List Int) :=
  (selection.splitOn ',').mapM pyInt

/-- One iteration of `select_images` on the line `input` typed by the user. -/
def select_images (image_files : List PyStr) (input : PyStr) :
    Option (List PyStr) :=
  let selection := pyStrip input
  if selection = [] then
    none
  else if pyLower selection = "all".toList then
    some image_files
  else
    match parseIndices selection with
    | some indices => collectIndices image_files indices []
    | none =>
      let matched := image_files.filter (fun img =>
        pyContains (pyLower img) (pyLower selection))
      if matched = [] then none else some matched

/-! ## `get_text_input` (src/local.py, lines 79–91) -/

/-- `get_text_input()`, as a function of the line typed: `none` is the quit
sentinel, `some []` the empty-input marker, `some t` the stripped text. -/
def get_text_input (input : PyStr) : Option PyStr :=
  let text := pyStrip input
  if pyLower text = "quit".toList ∨ pyLower text = "exit".toList ∨
      pyLower text = "q".toList then
    none
  else if text = [] then
    some []
  else
    some text

/-! ## `configure_ps3_and_context_length` (src/local.py, lines 94–144)

The environment holds the five PS3 variables; the numeric ones are carried
already converted by `int()` (resp. by the `split("+")` integer list
comprehension), since the source converts them with `int` at every use and
the claims concern well-formed numeric values.  `SMOOTH_SELECTION_PROB` is
kept as its raw string, whose parsing (lines 119–128) is part of the source.

The model object keeps the attributes the function touches, plus an abstract
field `rest` standing for every other attribute of the loaded model. -/

/-- The five environment variables read at lines 97–101. -/
structure Env where
  num_look_close : Option Int
  num_token_look_close : Option Int
  select_num_each_scale : Option (List Int)
  look_close_mode : Option PyStr
  smooth_selection_prob : Option PyStr
  deriving DecidableEq, Repr

/-- The mutable model state: the five PS3 attributes, the five context-length
locations, and `rest` for every attribute the function does not name. -/
structure Model (α : Type) where
  num_look_close : Int
  num_token_look_close : Int
  max_select_num_each_scale : List Int
  look_close_mode : PyStr
  smooth_selection_prob : Bool
  tokenizer_model_max_length : Int
  config_model_max_length : Int
  config_tokenizer_model_max_length : Int
  llm_config_model_max_length : Int
  llm_config_tokenizer_model_max_length : Int
  rest : α
  deriving DecidableEq, Repr

/-- Lines 103–128 (the "Set PS3 configs" block): each present variable
overwrites its attribute; an unrecognized `SMOOTH_SELECTION_PROB` value
raises `ValueError` (the `Except.error` case). -/
def apply_ps3_overrides (env : Env) (m : Model α) : Except PyStr (Model α) :=
  let m1 := match env.num_look_close with
    | some n => { m with num_look_close := n }
    | none => m
  let m2 := match env.num_token_look_close with
    | some n => { m1 with num_token_look_close := n }
    | none => m1
  let m3 := match env.select_num_each_scale with
    | some l => { m2 with max_select_num_each_scale := l }
    | none => m2
  let m4 := match env.look_close_mode with
    | some s => { m3 with look_close_mode := s }
    | none => m3
  match env.smooth_selection_prob with
  | some v =>
    if pyLower v = "true".toList then
      Except.ok { m4 with smooth_selection_prob := true }
    else if pyLower v = "false".toList then
      Except.ok { m4 with smooth_selection_prob := false }
    else
      Except.error ("Invalid smooth selection prob: ".toList ++ v)
  | none => Except.ok m4

/-- Lines 130–144: recompute the context length (Python `//` is floor
division, `Int.fdiv`) and write it into the five locations.  The
`max(getattr(model.tokenizer, "model_max_length", context_length), ...)` of
lines 138–139 re-reads the same still-unmodified tokenizer attribute. -/
def adjust_context_length (env : Env) (m : Model α) : Model α :=
  let context_length := m.tokenizer_model_max_length
  let context_length := match env.num_look_close with
    | some n => max context_length (Int.fdiv (n * 2560) 4 + 1024)
    | none => context_length
  let context_length := match env.num_token_look_close with
    | some n => max context_length (Int.fdiv n 4 + 1024)
    | none => context_length
  let context_length := max m.tokenizer_model_max_length context_length
  { m with
    config_model_max_length := context_length
    config_tokenizer_model_max_length := context_length
    llm_config_model_max_length := context_length
    llm_config_tokenizer_model_max_length := context_length
    tokenizer_model_max_length := context_length }

/-- `configure_ps3_and_context_length(model)` (lines 94–144). -/
def configure_ps3_and_context_length (env : Env) (m : Model α) :
    Except PyStr (Model α) :=
  (apply_ps3_overrides env m).map (adjust_context_length env)

/-! ## The `main` loop (src/local.py, lines 194–259)

Each iteration of the `while True` loop is abstracted to the event that
decides its control flow: the selection came back empty (`continue`), the
text input was a quit token (`break`), the text input was empty
(`continue`), a `KeyboardInterrupt` was raised (`break`), or generation ran
and either produced an answer or raised (both `continue`; the exception is
caught by the generic handler at lines 256–259). -/

deriving instance DecidableEq for Except

/-- The control-flow event of one loop iteration.  `exn` is an exception
raised by the turn body outside the generation call (e.g. while listing or
selecting images); `gen` is one `model.generate_content` call, which either
returns an answer or raises. -/
inductive TurnEvent where
  | emptySelection
  | emptyText
  | quit
  | interrupt
  | exn (msg : String)
  | gen (r : Except String String)
  deriving DecidableEq, Repr

/-- Outcome of running the loop on a finite trace of events: the exit code
when the loop terminated (`none` if the trace ran out first), and the number
of `model.generate_content` calls made. -/
structure SessionResult where
  exitCode : Option Nat
  generations : Nat
  deriving DecidableEq, Repr

/-- The `while True` loop of `main`: `quit` and `interrupt` break out (the
process then ends normally, exit status 0); every other event continues with
the next iteration; each `gen` event is one generation call. -/
def runSession : List TurnEvent → Nat → SessionResult
  | [], g => ⟨none, g⟩
  | TurnEvent.quit :: _, g => ⟨some 0, g⟩
  | TurnEvent.interrupt :: _, g => ⟨some 0, g⟩
  | TurnEvent.exn _ :: rest, g => runSession rest g
  | TurnEvent.gen _ :: rest, g => runSession rest (g + 1)
  | TurnEvent.emptySelection :: rest, g => runSession rest g
  | TurnEvent.emptyText :: rest, g => runSession rest g

/-- How the `main` process ends. -/
inductive MainOutcome where
  | raised (msg : PyStr)
  | exited (code : Nat)
  | awaitingInput
  deriving DecidableEq, Repr

/-- `main` after the model is loaded (lines 194–259): configure (an uncaught
`ValueError` kills the process), discover images (`sys.exit(1)` when none),
then run the interactive loop.  Returns the outcome and the number of
generation calls. -/
def runMain (env : Env) (m : Model α) (dir : Option (List PyStr))
    (events : List TurnEvent) : MainOutcome × Nat :=
  match configure_ps3_and_context_length env m with
  | Except.error msg => (MainOutcome.raised msg, 0)
  | Except.ok _ =>
    let image_files := (find_images dir).1
    if image_files = [] then
      (MainOutcome.exited 1, 0)
    else
      let r := runSession events 0
      match r.exitCode with
      | some c => (MainOutcome.exited c, r.generations)
      | none => (MainOutcome.awaitingInput, r.generations)

/-! ## The remote client (src/client.py) -/

/-- One content part of a chat message: a text part or an image-url part. -/
inductive ContentPart where
  | text (t : String)
  | image_url (url : String)
  deriving DecidableEq, Repr

/-- One chat message. -/
structure ChatMessage where
  role : String
  content : List ContentPart
  deriving DecidableEq, Repr

/-- The JSON request body `data` (client.py, lines 9–37). -/
structure ChatRequestBody where
  model : String
  messages : List ChatMessage
  deriving DecidableEq, Repr

/-- The single HTTP request issued by `requests.post(url, headers, json=data)`
(client.py, line 39). -/
structure HttpRequest where
  method : String
  url : String
  headers : List (String × String)
  body : ChatRequestBody
  deriving DecidableEq, Repr

/-- The `data` literal of client.py. -/
def client_data : ChatRequestBody :=
  { model := "NVILA-Lite-8B"
    messages := [
      { role := "user"
        content := [
          ContentPart.text "What's in this image?"
          , ContentPart.image_url
              "https://resources.chimhaha.net/article/1697450293398-9qc8qommtjf.jpg"] }] }

/-- The one request the script sends: POST to the completions URL with the
JSON content type and the bearer token, carrying `client_data`. -/
def client_request : HttpRequest :=
  { method := "POST"
    url := "http://localhost:8000/chat/completions"
    headers := [("Content-Type", "application/json"),
                ("Authorization", "Bearer fake-key")]
    body := client_data }

/-- One choice of the JSON response. -/
structure ChatChoice where
  message_content : String
  deriving DecidableEq, Repr

/-- The JSON response body. -/
structure ChatResponse where
  choices : List ChatChoice
  deriving DecidableEq, Repr

/-- `print(result["choices"][0]["message"]["content"])` (client.py, line 41):
what the script prints, `none` modelling the `IndexError`/`KeyError` crash
when there is no first choice. -/
def client_output (r : ChatResponse) : Option String :=
  r.choices.head?.map (fun c => c.message_content)

/-! ## Helper lemmas -/

theorem collectIndices_of_bad (image_files : List PyStr) :
    ∀ (indices : List Int) (acc : List PyStr),
      (∃ i ∈ indices, ¬(1 ≤ i ∧ i ≤ (image_files.length : Int))) →
      collectIndices image_files indices acc = some []
  | [], _, h => by simp at h
  | idx :: rest, acc, h => by
    rw [collectIndices]
    split_ifs with hin
    · obtain ⟨i, hi, hbad⟩ := h
      rcases List.mem_cons.mp hi with rfl | hi
      · exact absurd hin hbad
      · exact collectIndices_of_bad image_files rest _ ⟨i, hi, hbad⟩
    · rfl

theorem runSession_exit_zero (events : List TurnEvent) (g : Nat) (c : Nat)
    (h : (runSession events g).exitCode = some c) : c = 0 := by
  induction events generalizing g with
  | nil => simp [runSession] at h
  | cons ev rest ih =>
    cases ev <;> simp only [runSession] at h <;>
      first
        | exact ih _ h
        | (injection h with h; omega)

theorem runSession_exit_iff (events : List TurnEvent) (g : Nat) :
    (runSession events g).exitCode = some 0 ↔
      (TurnEvent.quit ∈ events ∨ TurnEvent.interrupt ∈ events) := by
  induction events generalizing g with
  | nil => simp [runSession]
  | cons ev rest ih =>
    cases ev <;> simp [runSession, ih]

theorem apply_ps3_overrides_fields {α : Type} (env : Env) (m m4 : Model α)
    (h : apply_ps3_overrides env m = Except.ok m4) :
    m4.num_look_close = env.num_look_close.getD m.num_look_close ∧
    m4.num_token_look_close =
      env.num_token_look_close.getD m.num_token_look_close ∧
    m4.max_select_num_each_scale =
      env.select_num_each_scale.getD m.max_select_num_each_scale ∧
    m4.look_close_mode = env.look_close_mode.getD m.look_close_mode ∧
    (env.smooth_selection_prob = none →
      m4.smooth_selection_prob = m.smooth_selection_prob) ∧
    (∀ v, env.smooth_selection_prob = some v →
      m4.smooth_selection_prob = decide (pyLower v = "true".toList)) ∧
    m4.tokenizer_model_max_length = m.tokenizer_model_max_length ∧
    m4.rest = m.rest := by
  obtain ⟨o1, o2, o3, o4, o5⟩ := env
  cases o1 <;> cases o2 <;> cases o3 <;> cases o4 <;> cases o5
  all_goals simp only [apply_ps3_overrides] at h
  all_goals try split_ifs at h with h1 h2
  all_goals injection h with h
  all_goals subst h
  all_goals simp_all

/-! ## Claim C2: `find_images` extension filtering -/

/-- Modelled from the claim's words, for comparison with `find_images`: the
files whose extension is one of the supported ones matched
case-insensitively, sorted lexicographically. -/
def find_images_claimed (names : List PyStr) : List PyStr :=
  (names.filter (fun n =>
    supported_extensions.any (fun ext => decide (ext <:+ pyLower n)))).insertionSort
    pyStrLe

/-- C2, counterexample: in a directory containing the single file `a.Jpg`,
whose extension is `.jpg` up to case, `find_images` returns nothing — the
glob patterns try only the all-lowercase and all-uppercase spelling of each
extension, so a mixed-case extension is not matched, contradicting the
claimed case-insensitive matching. -/
theorem find_images_mixed_case_counterexample :
    (find_images (some ["a.Jpg".toList])).1 = [] ∧
    find_images_claimed ["a.Jpg".toList] = ["a.Jpg".toList] ∧
    (find_images (some ["a.Jpg".toList])).1 ≠
      find_images_claimed ["a.Jpg".toList] := by
  decide

/-- C2, amended: for every directory, `find_images` returns exactly the
entries directly in that directory (no recursion) whose name ends with a
supported extension spelled either all-lowercase or all-uppercase (mixed-case
extensions are not matched), and the returned list is sorted
lexicographically. -/
theorem find_images_characterization :
    ∀ (names : List PyStr) (n : PyStr),
      (n ∈ (find_images (some names)).1 ↔
        n ∈ names ∧ supported_extensions.any
            (fun ext => decide (ext <:+ n) || decide (pyUpper ext <:+ n)) = true) ∧
      List.Pairwise pyStrLe (find_images (some names)).1 := by
  intro names n
  constructor
  · simp only [find_images, List.mem_insertionSort, List.mem_flatMap,
      List.mem_append, List.mem_filter, List.any_eq_true, Bool.or_eq_true,
      decide_eq_true_eq]
    aesop
  · simp only [find_images]
    exact List.sorted_insertionSort pyStrLe _

/-! ## Claim C3: out-of-range index selection -/

/-- C3: when the (stripped) input parses as a comma-separated list of
integers and at least one of them is outside `1..len(image_files)`,
`select_images` returns the empty list — never a partial selection. -/
theorem select_images_out_of_range_empty (image_files : List PyStr)
    (input : PyStr) (indices : List Int)
    (hne : pyStrip input ≠ [])
    (hall : pyLower (pyStrip input) ≠ "all".toList)
    (hparse : parseIndices (pyStrip input) = some indices)
    (hbad : ∃ i ∈ indices, ¬(1 ≤ i ∧ i ≤ (image_files.length : Int))) :
    select_images image_files input = some [] := by
  simp only [select_images, if_neg hne, if_neg hall, hparse]
  exact collectIndices_of_bad image_files indices [] hbad

theorem select_images_out_of_range_empty_witness :
    select_images ["a.jpg".toList, "b.png".toList] "1,5".toList = some [] :=
  select_images_out_of_range_empty _ _ [1, 5] (by decide) (by decide)
    (by decide) ⟨5, by decide, by decide⟩

/-! ## Claim C4: substring selection -/

/-- C4: when the (stripped) input is nonempty, is not the token `all` and
does not parse as a comma-separated integer list, `select_images` returns
exactly the catalog entries whose name contains it as a case-insensitive
substring — and when no entry matches, no selection is returned (the loop
re-prompts after printing an error). -/
theorem select_images_substring_match (image_files : List PyStr)
    (input : PyStr)
    (hne : pyStrip input ≠ [])
    (hall : pyLower (pyStrip input) ≠ "all".toList)
    (hparse : parseIndices (pyStrip input) = none) :
    select_images image_files input =
      (let matched := image_files.filter (fun img =>
        pyContains (pyLower img) (pyLower (pyStrip input)))
       if matched = [] then none else some matched) := by
  simp only [select_images, if_neg hne, if_neg hall, hparse]

theorem select_images_substring_match_witness :
    select_images ["cat_photo.jpg".toList, "dog.png".toList] "CAT".toList =
      some ["cat_photo.jpg".toList] := by
  rw [select_images_substring_match _ _ (by decide) (by decide) (by decide)]
  decide

/-! ## Claim C5: quit tokens and empty input -/

/-- C5: `get_text_input` returns the quit sentinel `none` exactly when the
stripped input is `quit`, `exit` or `q` up to case; it returns the empty
string on empty (or whitespace-only) input; any other input comes back
stripped. -/
theorem get_text_input_spec (input : PyStr) :
    (get_text_input input = none ↔
      (pyLower (pyStrip input) = "quit".toList ∨
       pyLower (pyStrip input) = "exit".toList ∨
       pyLower (pyStrip input) = "q".toList)) ∧
    (pyStrip input = [] → get_text_input input = some []) ∧
    (pyStrip input ≠ [] →
      ¬(pyLower (pyStrip input) = "quit".toList ∨
        pyLower (pyStrip input) = "exit".toList ∨
        pyLower (pyStrip input) = "q".toList) →
      get_text_input input = some (pyStrip input)) := by
  by_cases hq : (pyLower (pyStrip input) = "quit".toList ∨
      pyLower (pyStrip input) = "exit".toList ∨
      pyLower (pyStrip input) = "q".toList)
  · have hret : get_text_input input = none := by
      simp only [get_text_input]
      rw [if_pos hq]
    refine ⟨iff_of_true hret hq, ?_, ?_⟩
    · intro hnil
      rw [hnil] at hq
      rcases hq with h | h | h <;> exact absurd h (by decide)
    · intro _ hq2
      exact absurd hq hq2
  · have hret : get_text_input input =
        (if pyStrip input = [] then some [] else some (pyStrip input)) := by
      simp only [get_text_input]
      rw [if_neg hq]
    refine ⟨?_, ?_, ?_⟩
    · rw [hret]
      constructor
      · intro h
        split_ifs at h
      · intro h
        exact absurd h hq
    · intro hnil
      rw [hret, if_pos hnil]
    · intro hne _
      rw [hret, if_neg hne]

theorem get_text_input_spec_witness :
    get_text_input " Hi ".toList = some "Hi".toList :=
  (get_text_input_spec " Hi ".toList).2.2 (by decide) (by decide)

/-! ## Claim C1: context length written to the five locations -/

/-- C1: when `NUM_LOOK_CLOSE` is set and the tokenizer's current limit is
below the bound it derives, the effective context length is the maximum of
the tokenizer's current limit and the derived lower bounds (the
token-look-close bound only when that variable is present), and that single
value is stored in all five configuration locations. -/
theorem configure_context_length_five_locations {α : Type} (env : Env)
    (m : Model α) (n : Int) (m' : Model α)
    (hn : env.num_look_close = some n)
    (hlt : m.tokenizer_model_max_length < Int.fdiv (n * 2560) 4 + 1024)
    (hok : configure_ps3_and_context_length env m = Except.ok m') :
    ∃ ctx,
      ctx = max m.tokenizer_model_max_length
          (match env.num_token_look_close with
           | some k => max (Int.fdiv (n * 2560) 4 + 1024) (Int.fdiv k 4 + 1024)
           | none => Int.fdiv (n * 2560) 4 + 1024) ∧
      m'.config_model_max_length = ctx ∧
      m'.config_tokenizer_model_max_length = ctx ∧
      m'.llm_config_model_max_length = ctx ∧
      m'.llm_config_tokenizer_model_max_length = ctx ∧
      m'.tokenizer_model_max_length = ctx := by
  unfold configure_ps3_and_context_length at hok
  cases happ : apply_ps3_overrides env m with
  | error e => rw [happ] at hok; cases hok
  | ok m4 =>
    rw [happ] at hok
    simp only [Except.map] at hok
    injection hok with hok
    obtain ⟨-, -, -, -, -, -, htok, -⟩ := apply_ps3_overrides_fields env m m4 happ
    subst hok
    cases hk : env.num_token_look_close with
    | none =>
      refine ⟨max m.tokenizer_model_max_length (Int.fdiv (n * 2560) 4 + 1024),
        rfl, ?_, ?_, ?_, ?_, ?_⟩ <;>
        simp only [adjust_context_length, hn, hk, htok] <;>
        rw [← max_assoc, max_self]
    | some k =>
      refine ⟨max m.tokenizer_model_max_length
          (max (Int.fdiv (n * 2560) 4 + 1024) (Int.fdiv k 4 + 1024)),
        rfl, ?_, ?_, ?_, ?_, ?_⟩ <;>
        simp only [adjust_context_length, hn, hk, htok] <;>
        omega

def mBase : Model Unit :=
  { num_look_close := 6
    num_token_look_close := 2048
    max_select_num_each_scale := []
    look_close_mode := []
    smooth_selection_prob := false
    tokenizer_model_max_length := 4096
    config_model_max_length := 4096
    config_tokenizer_model_max_length := 4096
    llm_config_model_max_length := 4096
    llm_config_tokenizer_model_max_length := 4096
    rest := () }

def env_c1 : Env := ⟨some 100, none, none, none, none⟩

def m_c1 : Model Unit :=
  { mBase with
    num_look_close := 100
    tokenizer_model_max_length := 65024
    config_model_max_length := 65024
    config_tokenizer_model_max_length := 65024
    llm_config_model_max_length := 65024
    llm_config_tokenizer_model_max_length := 65024 }

theorem configure_context_length_five_locations_witness :
    m_c1.config_model_max_length = 65024 ∧
    m_c1.tokenizer_model_max_length = 65024 := by
  obtain ⟨ctx, hctx, h1, h2, h3, h4, h5⟩ :=
    configure_context_length_five_locations env_c1 mBase 100 m_c1 rfl
      (by decide) (by decide)
  constructor
  · rw [h1, hctx]; decide
  · rw [h5, hctx]; decide

/-! ## Claim C6: `SMOOTH_SELECTION_PROB` validation -/

/-- C6: when `SMOOTH_SELECTION_PROB` is present with a value that is neither
`true` nor `false` up to case, configuration raises a `ValueError` — and
since `main` configures before the interactive loop, the process dies with
zero generations performed; the values `true`/`false` (any case) are
converted to the corresponding boolean and assigned. -/
theorem smooth_selection_prob_validation {α : Type} (env : Env) (m : Model α)
    (v : PyStr) (hv : env.smooth_selection_prob = some v) :
    ((pyLower v ≠ "true".toList ∧ pyLower v ≠ "false".toList) →
      configure_ps3_and_context_length env m =
        Except.error ("Invalid smooth selection prob: ".toList ++ v) ∧
      ∀ (dir : Option (List PyStr)) (events : List TurnEvent),
        runMain env m dir events =
          (MainOutcome.raised ("Invalid smooth selection prob: ".toList ++ v),
            0)) ∧
    (pyLower v = "true".toList →
      ∃ m', configure_ps3_and_context_length env m = Except.ok m' ∧
        m'.smooth_selection_prob = true) ∧
    (pyLower v = "false".toList →
      ∃ m', configure_ps3_and_context_length env m = Except.ok m' ∧
        m'.smooth_selection_prob = false) := by
  refine ⟨?_, ?_, ?_⟩
  · rintro ⟨h1, h2⟩
    have happ : apply_ps3_overrides env m =
        Except.error ("Invalid smooth selection prob: ".toList ++ v) := by
      simp only [apply_ps3_overrides, hv]
      rw [if_neg h1, if_neg h2]
    have hconf : configure_ps3_and_context_length env m =
        Except.error ("Invalid smooth selection prob: ".toList ++ v) := by
      simp only [configure_ps3_and_context_length, happ, Except.map]
    refine ⟨hconf, ?_⟩
    intro dir events
    simp only [runMain, hconf]
  · intro h1
    have happ : ∃ m4, apply_ps3_overrides env m = Except.ok m4 ∧
        m4.smooth_selection_prob = true := by
      simp only [apply_ps3_overrides, hv]
      rw [if_pos h1]
      exact ⟨_, rfl, rfl⟩
    obtain ⟨m4, happ, hsm⟩ := happ
    refine ⟨adjust_context_length env m4, ?_, ?_⟩
    · simp only [configure_ps3_and_context_length, happ, Except.map]
    · simpa [adjust_context_length] using hsm
  · intro h2
    have h1 : ¬ pyLower v = "true".toList := by
      rw [h2]; decide
    have happ : ∃ m4, apply_ps3_overrides env m = Except.ok m4 ∧
        m4.smooth_selection_prob = false := by
      simp only [apply_ps3_overrides, hv]
      rw [if_neg h1, if_pos h2]
      exact ⟨_, rfl, rfl⟩
    obtain ⟨m4, happ, hsm⟩ := happ
    refine ⟨adjust_context_length env m4, ?_, ?_⟩
    · simp only [configure_ps3_and_context_length, happ, Except.map]
    · simpa [adjust_context_length] using hsm

def env_c6 : Env := ⟨none, none, none, none, some "maybe".toList⟩

theorem smooth_selection_prob_validation_witness :
    configure_ps3_and_context_length env_c6 mBase =
      Except.error ("Invalid smooth selection prob: ".toList ++
        "maybe".toList) ∧
    runMain env_c6 mBase (some ["a.jpg".toList]) [] =
      (MainOutcome.raised ("Invalid smooth selection prob: ".toList ++
        "maybe".toList), 0) := by
  obtain ⟨hbad, -, -⟩ :=
    smooth_selection_prob_validation env_c6 mBase "maybe".toList rfl
  obtain ⟨h1, h2⟩ := hbad ⟨by decide, by decide⟩
  exact ⟨h1, h2 (some ["a.jpg".toList]) []⟩

/-! ## Claim C9: frame of the environment overrides -/

/-- C9: each of the five environment variables, when present, overwrites
exactly its corresponding model attribute; when absent, the attribute keeps
its previous value; and apart from the five corresponding attributes and the
five context-length fields, no model field is modified (`rest` is every
other attribute). -/
theorem configure_ps3_frame {α : Type} (env : Env) (m m' : Model α)
    (hok : configure_ps3_and_context_length env m = Except.ok m') :
    m'.num_look_close = env.num_look_close.getD m.num_look_close ∧
    m'.num_token_look_close =
      env.num_token_look_close.getD m.num_token_look_close ∧
    m'.max_select_num_each_scale =
      env.select_num_each_scale.getD m.max_select_num_each_scale ∧
    m'.look_close_mode = env.look_close_mode.getD m.look_close_mode ∧
    (env.smooth_selection_prob = none →
      m'.smooth_selection_prob = m.smooth_selection_prob) ∧
    (∀ v, env.smooth_selection_prob = some v →
      m'.smooth_selection_prob = decide (pyLower v = "true".toList)) ∧
    m'.rest = m.rest := by
  unfold configure_ps3_and_context_length at hok
  cases happ : apply_ps3_overrides env m with
  | error e => rw [happ] at hok; cases hok
  | ok m4 =>
    rw [happ] at hok
    simp only [Except.map] at hok
    injection hok with hok
    subst hok
    obtain ⟨h1, h2, h3, h4, h5, h6, -, h8⟩ :=
      apply_ps3_overrides_fields env m m4 happ
    exact ⟨by simpa [adjust_context_length] using h1,
      by simpa [adjust_context_length] using h2,
      by simpa [adjust_context_length] using h3,
      by simpa [adjust_context_length] using h4,
      fun hnone => by simpa [adjust_context_length] using h5 hnone,
      fun v hv => by simpa [adjust_context_length] using h6 v hv,
      by simpa [adjust_context_length] using h8⟩

def env_c9 : Env :=
  ⟨some 7, some 9, some [1, 2], some "mode".toList, some "TRUE".toList⟩

def m_c9 : Model Unit :=
  { num_look_close := 7
    num_token_look_close := 9
    max_select_num_each_scale := [1, 2]
    look_close_mode := "mode".toList
    smooth_selection_prob := true
    tokenizer_model_max_length := 5504
    config_model_max_length := 5504
    config_tokenizer_model_max_length := 5504
    llm_config_model_max_length := 5504
    llm_config_tokenizer_model_max_length := 5504
    rest := () }

theorem configure_ps3_frame_witness :
    m_c9.num_look_close = 7 ∧
    m_c9.look_close_mode = "mode".toList ∧
    m_c9.smooth_selection_prob = true ∧
    m_c9.rest = mBase.rest := by
  obtain ⟨h1, h2, h3, h4, h5, h6, h7⟩ :=
    configure_ps3_frame env_c9 mBase m_c9 (by decide)
  refine ⟨?_, ?_, ?_, h7⟩
  · rw [h1]; decide
  · rw [h4]; decide
  · rw [h6 ("TRUE".toList) rfl]; decide

/-! ## Claim C7: loop termination behaviour -/

/-- C7: the interactive loop terminates only via a quit token or a keyboard
interrupt, and then the exit status is 0; an exception raised by generation
is caught and the loop simply continues with the next turn. -/
theorem session_loop_termination (events : List TurnEvent) (g : Nat) :
    (∀ c, (runSession events g).exitCode = some c →
      c = 0 ∧ (TurnEvent.quit ∈ events ∨ TurnEvent.interrupt ∈ events)) ∧
    ((TurnEvent.quit ∈ events ∨ TurnEvent.interrupt ∈ events) →
      (runSession events g).exitCode = some 0) ∧
    (∀ (msg : String) (rest : List TurnEvent) (g' : Nat),
      runSession (TurnEvent.gen (Except.error msg) :: rest) g' =
        runSession rest (g' + 1)) ∧
    (∀ (msg : String) (rest : List TurnEvent) (g' : Nat),
      runSession (TurnEvent.exn msg :: rest) g' = runSession rest g') := by
  refine ⟨?_, ?_, ?_, ?_⟩
  · intro c hc
    have h0 := runSession_exit_zero events g c hc
    subst h0
    exact ⟨rfl, (runSession_exit_iff events g).mp hc⟩
  · exact fun h => (runSession_exit_iff events g).mpr h
  · intro msg rest g'
    rfl
  · intro msg rest g'
    rfl

theorem session_loop_termination_witness :
    (0 = 0 ∧
      (TurnEvent.quit ∈ [TurnEvent.gen (Except.error "boom"), TurnEvent.quit] ∨
       TurnEvent.interrupt ∈
         [TurnEvent.gen (Except.error "boom"), TurnEvent.quit])) ∧
    (runSession [TurnEvent.gen (Except.error "boom"), TurnEvent.quit]
      0).exitCode = some 0 := by
  obtain ⟨h1, h2, h3, h4⟩ :=
    session_loop_termination
      [TurnEvent.gen (Except.error "boom"), TurnEvent.quit] 0
  exact ⟨h1 0 (by decide), h2 (by decide)⟩

/-! ## Claim C8: missing directory and exit codes -/

/-- C8: a missing images directory makes `find_images` log an error and
return the empty list without raising; whenever the discovered catalog is
empty, `main` exits with status 1; otherwise the exit status on quit or
interrupt is 0. -/
theorem missing_images_exit_codes :
    (find_images none = ([], true)) ∧
    (∀ (α : Type) (env : Env) (m m' : Model α) (dir : Option (List PyStr))
        (events : List TurnEvent),
      configure_ps3_and_context_length env m = Except.ok m' →
      (find_images dir).1 = [] →
      runMain env m dir events = (MainOutcome.exited 1, 0)) ∧
    (∀ (α : Type) (env : Env) (m m' : Model α) (dir : Option (List PyStr))
        (events : List TurnEvent),
      configure_ps3_and_context_length env m = Except.ok m' →
      (find_images dir).1 ≠ [] →
      (TurnEvent.quit ∈ events ∨ TurnEvent.interrupt ∈ events) →
      (runMain env m dir events).1 = MainOutcome.exited 0) := by
  refine ⟨rfl, ?_, ?_⟩
  · intro α env m m' dir events hok hempty
    simp only [runMain, hok]
    rw [if_pos hempty]
  · intro α env m m' dir events hok hne hq
    have hexit := (runSession_exit_iff events 0).mpr hq
    simp only [runMain, hok]
    rw [if_neg hne, hexit]

theorem missing_images_exit_codes_witness :
    runMain (⟨none, none, none, none, none⟩ : Env) mBase none [] =
      (MainOutcome.exited 1, 0) ∧
    (runMain (⟨none, none, none, none, none⟩ : Env) mBase
      (some ["a.jpg".toList]) [TurnEvent.interrupt]).1 =
      MainOutcome.exited 0 := by
  obtain ⟨h1, h2, h3⟩ := missing_images_exit_codes
  exact ⟨h2 Unit ⟨none, none, none, none, none⟩ mBase mBase none []
      (by decide) (by decide),
    h3 Unit ⟨none, none, none, none, none⟩ mBase mBase
      (some ["a.jpg".toList]) [TurnEvent.interrupt] (by decide) (by decide)
      (Or.inr (by decide))⟩

/-! ## Claim C10: shape of the remote client's request -/

/-- C10: the client sends a single POST whose JSON body holds exactly one
message, of role `user`, with exactly two content parts in order — one text
part and one image-url part — under the JSON content type and the bearer
token, and it prints exactly the first choice's message content, consuming
no other choice. -/
theorem client_request_shape :
    client_request.method = "POST" ∧
    client_request.url = "http://localhost:8000/chat/completions" ∧
    client_request.headers = [("Content-Type", "application/json"),
      ("Authorization", "Bearer fake-key")] ∧
    client_request.body.messages = [{ role := "user", content := [
      ContentPart.text "What's in this image?",
      ContentPart.image_url
        "https://resources.chimhaha.net/article/1697450293398-9qc8qommtjf.jpg"] }] ∧
    (∀ (c : ChatChoice) (cs : List ChatChoice),
      client_output { choices := c :: cs } = some c.message_content) :=
  ⟨rfl, rfl, rfl, rfl, fun _ _ => rfl⟩
